import Mathlib

/-!
Verification development for the DeepClaude gateway (Rust sources under `src/`).

The definitions below are a shallow embedding of the code paths relevant to the
frozen claims:

* `src/src/clients/anthropic.rs` — SSE stream decoding (`chat_stream`), request
  building (`build_request`), header building (`build_headers`), endpoint
  selection (`should_use_openai_format` and the URL getters).
* `src/src/handlers.rs` — the streaming composition pipeline (`chat_stream`)
  and the non-streaming handler's `choices[0].message.content` computation.

Rust `String` values are modelled by Lean `String` (a wrapper around
`List Char`); all string helpers are re-implemented by structural recursion on
the character list so that every definition evaluates inside the kernel.
Wall-clock time is modelled by an `Int` number of seconds attached to each
upstream item; `chrono::Utc::now()` at the moment an item is handled is the
item's arrival time.
-/

namespace DeepClaude

/-! ## Character and string helpers (structural re-implementations of the
Rust `str` operations used by the sources). -/

def quoteChar : Char := Char.ofNat 34

def lbrace : Char := Char.ofNat 123

def rbrace : Char := Char.ofNat 125

def backslashChar : Char := Char.ofNat 92

def isWsChar (c : Char) : Bool :=
  c = ' ' || c = '\t' || c = '\n' || c = '\r'

/-- Drop leading whitespace characters. -/
def skipWs : List Char → List Char
  | [] => []
  | c :: rest => if isWsChar c then skipWs rest else c :: rest

/-- Does the second list start with the first list? -/
def headMatches : List Char → List Char → Bool
  | [], _ => true
  | _ :: _, [] => false
  | a :: as, b :: bs => a == b && headMatches as bs

/-- The suffix of `hay` starting at the first occurrence of `needle`
(`None` when `needle` does not occur).  Mirrors Rust `str::find` plus
slicing `&hay[idx..]`. -/
def suffixFromOcc (needle : List Char) : List Char → Option (List Char)
  | [] => if needle.isEmpty then some [] else none
  | c :: rest =>
    if headMatches needle (c :: rest) then some (c :: rest)
    else suffixFromOcc needle rest

/-- Rust `str::contains` (substring test). -/
def strContains (hay needle : String) : Bool :=
  (suffixFromOcc needle.data hay.data).isSome

/-- Rust `&hay[hay.find(needle).unwrap()..]` with fallback to `hay` when the
needle does not occur (the `else` branch of the source). -/
def fromFirstOcc (hay needle : String) : String :=
  match suffixFromOcc needle.data hay.data with
  | some suf => String.mk suf
  | none => hay

/-- Rust `str::starts_with`. -/
def strStartsWith (s pat : String) : Bool :=
  headMatches pat.data s.data

/-- Rust `str::trim` (whitespace from both ends). -/
def rustTrim (s : String) : String :=
  String.mk (skipWs ((skipWs s.data.reverse).reverse))

/-- Rust `str::trim_start`. -/
def trimStart (s : String) : String :=
  String.mk (skipWs s.data)

/-- Split a character list at every newline; each `\n` terminates a line. -/
def splitNl : List Char → List (List Char)
  | [] => [[]]
  | c :: rest =>
    if c = '\n' then [] :: splitNl rest
    else match splitNl rest with
         | h :: t => (c :: h) :: t
         | [] => [[c]]

/-- Drop one trailing carriage return, as Rust `str::lines` does. -/
def stripCr (l : List Char) : List Char :=
  match l.reverse with
  | c :: rest => if c = '\r' then rest.reverse else l
  | [] => l

/-- Rust `str::lines`: split on `\n`, no trailing empty line, strip one `\r`. -/
def rustLines (s : String) : List String :=
  let parts := splitNl s.data
  let parts :=
    match parts.reverse with
    | last :: rest => if last.isEmpty then rest.reverse else parts
    | [] => parts
  parts.map (fun l => String.mk (stripCr l))

/-- Concatenation of a list of strings; Rust `Vec<String>::join("")`. -/
def joinAll : List String → String
  | [] => ""
  | s :: rest => s ++ joinAll rest

/-- ASCII lower-casing of one character (HTTP header names are normalized to
lowercase by `http::HeaderName` parsing). -/
def lcChar (c : Char) : Char :=
  if 'A' ≤ c ∧ c ≤ 'Z' then Char.ofNat (c.toNat + 32) else c

/-- ASCII lower-casing of a string. -/
def lcStr (s : String) : String :=
  String.mk (s.data.map lcChar)

/-! ## Association lists with string keys.

These model both `serde_json::Map<String, Value>` and `http::HeaderMap` as
used by the sources: `alInsert` is insert-or-replace keyed lookup (the
semantics of `Map::insert` and `HeaderMap::insert`), and `alExtend` folds
`alInsert` over a second map (the semantics of `HeaderMap::extend` with a
single value per key). -/

def alGet {α : Type} : List (String × α) → String → Option α
  | [], _ => none
  | p :: rest, k => if p.1 == k then some p.2 else alGet rest k

def alInsert {α : Type} (m : List (String × α)) (k : String) (v : α) :
    List (String × α) :=
  (m.filter (fun p => !(p.1 == k))) ++ [(k, v)]

def alExtend {α : Type} (m add : List (String × α)) : List (String × α) :=
  add.foldl (fun a p => alInsert a p.1 p.2) m

/-- All keys of the association list are pairwise distinct. -/
def namesNodup {α : Type} : List (String × α) → Bool
  | [] => true
  | p :: rest => rest.all (fun q => !(q.1 == p.1)) && namesNodup rest

/-! ## A small JSON value type and parser.

`serde_json` errors are classified exactly as the sources do by substring
matching on the error message: a `JErr.eof` corresponds to the
"EOF while parsing …" / "unexpected end of input" family (premature end of
the input), every other failure is `JErr.other`. -/

inductive JErr
  | eof
  | other
deriving DecidableEq

inductive Json
  | null
  | bool (b : Bool)
  | num (n : Int)
  | dec (lit : String)
  | str (s : String)
  | arr (elems : List Json)
  | obj (fields : List (String × Json))

def digitsToNat (ds : List Char) : Nat :=
  ds.foldl (fun a c => a * 10 + (c.toNat - 48)) 0

def takeDigits : List Char → List Char × List Char
  | [] => ([], [])
  | c :: rest =>
    if '0' ≤ c ∧ c ≤ '9' then
      match takeDigits rest with
      | (ds, r) => (c :: ds, r)
    else ([], c :: rest)

def intOfDigits (neg : Bool) (ds : List Char) : Int :=
  if neg then -(digitsToNat ds : Int) else (digitsToNat ds : Int)

def parseNum (neg : Bool) (cs : List Char) : Except JErr (Json × List Char) :=
  match takeDigits cs with
  | (ds, rest) =>
    if ds.isEmpty then (if rest.isEmpty then .error .eof else .error .other)
    else
      match rest with
      | c :: rest2 =>
        if c = '.' then
          match takeDigits rest2 with
          | (fs, rest3) =>
            if fs.isEmpty then
              (if rest3.isEmpty then .error .eof else .error .other)
            else
              .ok (.dec (String.mk ((if neg then ['-'] else []) ++ ds ++ '.' :: fs)), rest3)
        else .ok (.num (intOfDigits neg ds), c :: rest2)
      | [] => .ok (.num (intOfDigits neg ds), [])

def unescapeChar (c : Char) : Option Char :=
  if c = quoteChar then some quoteChar
  else if c = backslashChar then some backslashChar
  else if c = '/' then some '/'
  else if c = 'n' then some '\n'
  else if c = 't' then some '\t'
  else if c = 'r' then some '\r'
  else none

def parseStrBody : List Char → Except JErr (String × List Char)
  | [] => .error .eof
  | c :: rest =>
    if c = quoteChar then .ok ("", rest)
    else if c = backslashChar then
      match rest with
      | [] => .error .eof
      | e :: rest2 =>
        match unescapeChar e with
        | none => .error .other
        | some ch =>
          match parseStrBody rest2 with
          | .ok (s, r) => .ok (String.mk (ch :: s.data), r)
          | .error er => .error er
    else
      match parseStrBody rest with
      | .ok (s, r) => .ok (String.mk (c :: s.data), r)
      | .error er => .error er

def parseLit : List Char → Json → List Char → Except JErr (Json × List Char)
  | [], j, cs => .ok (j, cs)
  | _ :: _, _, [] => .error .eof
  | e :: es, j, c :: cs => if c = e then parseLit es j cs else .error .other

mutual

def parseVal : Nat → List Char → Except JErr (Json × List Char)
  | 0, _ => .error .other
  | Nat.succ fuel, cs =>
    match skipWs cs with
    | [] => .error .eof
    | c :: rest =>
      if c = lbrace then parseObjFields fuel rest true []
      else if c = '[' then parseArrElems fuel rest true []
      else if c = quoteChar then
        match parseStrBody rest with
        | .ok (s, r) => .ok (.str s, r)
        | .error e => .error e
      else if c = 't' then parseLit ['r', 'u', 'e'] (.bool true) rest
      else if c = 'f' then parseLit ['a', 'l', 's', 'e'] (.bool false) rest
      else if c = 'n' then parseLit ['u', 'l', 'l'] .null rest
      else if c = '-' then parseNum true rest
      else if '0' ≤ c ∧ c ≤ '9' then parseNum false (c :: rest)
      else .error .other

def parseObjFields : Nat → List Char → Bool → List (String × Json) →
    Except JErr (Json × List Char)
  | 0, _, _, _ => .error .other
  | Nat.succ fuel, cs, isFirst, acc =>
    match skipWs cs with
    | [] => .error .eof
    | c :: rest =>
      if isFirst && c == rbrace then .ok (.obj acc.reverse, rest)
      else if c = quoteChar then
        match parseStrBody rest with
        | .error e => .error e
        | .ok (k, r1) =>
          match skipWs r1 with
          | [] => .error .eof
          | c2 :: r2 =>
            if c2 = ':' then
              match parseVal fuel r2 with
              | .error e => .error e
              | .ok (v, r3) =>
                match skipWs r3 with
                | [] => .error .eof
                | c3 :: r4 =>
                  if c3 = ',' then parseObjFields fuel r4 false ((k, v) :: acc)
                  else if c3 == rbrace then .ok (.obj (((k, v) :: acc).reverse), r4)
                  else .error .other
            else .error .other
      else .error .other

def parseArrElems : Nat → List Char → Bool → List Json →
    Except JErr (Json × List Char)
  | 0, _, _, _ => .error .other
  | Nat.succ fuel, cs, isFirst, acc =>
    match skipWs cs with
    | [] => .error .eof
    | c :: rest =>
      if isFirst && c == ']' then .ok (.arr acc.reverse, rest)
      else
        match parseVal fuel (c :: rest) with
        | .error e => .error e
        | .ok (v, r1) =>
          match skipWs r1 with
          | [] => .error .eof
          | c2 :: r2 =>
            if c2 = ',' then parseArrElems fuel r2 false (v :: acc)
            else if c2 = ']' then .ok (.arr ((v :: acc).reverse), r2)
            else .error .other

end

/-- Model of `serde_json::from_str::<Value>`: parse one value and require the
remaining input to be whitespace (otherwise serde reports
"trailing characters", a non-EOF error). -/
def jsonFromStr (s : String) : Except JErr Json :=
  match parseVal (s.data.length + 4) s.data with
  | .error e => .error e
  | .ok (j, rest) => if (skipWs rest).isEmpty then .ok j else .error .other

def Json.objGet : Json → String → Option Json
  | .obj fields, k => alGet fields k
  | _, _ => none

def Json.asArr : Json → Option (List Json)
  | .arr xs => some xs
  | _ => none

def Json.asStr : Json → Option String
  | .str s => some s
  | _ => none

def Json.asNatNum : Json → Option Nat
  | .num n => if n < 0 then none else some n.toNat
  | _ => none

def Json.isNull : Json → Bool
  | .null => true
  | _ => false

/-! ## The Anthropic wire adapter (`src/src/clients/anthropic.rs`,
`chat_stream`, lines 682-873).

`StreamEvent` is the event enum of the source (payload fields that no claim
inspects, such as `index`, are dropped).  `AdapterItem` is one item of the
yielded `Result<StreamEvent>` stream: `parseErr` stands for the
`ApiError::Internal` produced at line 843 for a JSON payload that fails to
parse for a reason other than premature end of input. -/

inductive StreamEvent
  | messageStart
  | contentBlockStart
  | contentBlockDelta (text : String)
  | contentBlockStop
  | messageDelta
  | messageStop
  | ping
deriving DecidableEq

inductive AdapterItem
  | ev (e : StreamEvent)
  | parseErr
deriving DecidableEq

/-- Decoder state of the `chat_stream` loop.  The source also declares a
`data: String` accumulator (line 718) but never appends to it, so no
cross-chunk buffer is part of the state. -/
structure DecSt where
  contentBuffer : String
  streamEnded : Bool
deriving DecidableEq

def checkOptNat : Option Json → Bool
  | none => true
  | some (.num n) => decide (0 ≤ n)
  | some _ => false

/-- Does `j` deserialize as the serde `Usage` struct (all four `u32` fields
carry `#[serde(default)]`, so each may be absent)? -/
def decodeUsage (j : Json) : Bool :=
  match j with
  | .obj _ =>
    checkOptNat (j.objGet "input_tokens") &&
    checkOptNat (j.objGet "output_tokens") &&
    checkOptNat (j.objGet "cache_creation_input_tokens") &&
    checkOptNat (j.objGet "cache_read_input_tokens")
  | _ => false

/-- Deserialization of `Option<String>` fields: absent or `null` is `None`. -/
def decodeOptStr : Option Json → Option (Option String)
  | none => some none
  | some .null => some none
  | some (.str s) => some (some s)
  | some _ => none

/-- Does `j` deserialize as the serde `ContentBlock` struct? -/
def decodeContentBlock (j : Json) : Bool :=
  ((j.objGet "type").bind Json.asStr).isSome &&
  ((j.objGet "text").bind Json.asStr).isSome

/-- Does `j` deserialize as the serde `AnthropicResponse` struct? -/
def decodeAnthropicResponse (j : Json) : Bool :=
  ((j.objGet "id").bind Json.asStr).isSome &&
  ((j.objGet "type").bind Json.asStr).isSome &&
  ((j.objGet "role").bind Json.asStr).isSome &&
  ((j.objGet "model").bind Json.asStr).isSome &&
  (match (j.objGet "content").bind Json.asArr with
   | some blocks => blocks.all decodeContentBlock
   | none => false) &&
  (decodeOptStr (j.objGet "stop_reason")).isSome &&
  (decodeOptStr (j.objGet "stop_sequence")).isSome &&
  (match j.objGet "usage" with
   | some u => decodeUsage u
   | none => false)

/-- Deserialization of the internally tagged `StreamEvent` enum
(`#[serde(tag = "type")]`). -/
def decodeStreamEvent (j : Json) : Option StreamEvent :=
  match (j.objGet "type").bind Json.asStr with
  | none => none
  | some tag =>
    if tag = "message_start" then
      match j.objGet "message" with
      | some m => if decodeAnthropicResponse m then some .messageStart else none
      | none => none
    else if tag = "content_block_start" then
      match (j.objGet "index").bind Json.asNatNum, j.objGet "content_block" with
      | some _, some cb => if decodeContentBlock cb then some .contentBlockStart else none
      | _, _ => none
    else if tag = "content_block_delta" then
      match (j.objGet "index").bind Json.asNatNum, j.objGet "delta" with
      | some _, some d =>
        match (d.objGet "type").bind Json.asStr, (d.objGet "text").bind Json.asStr with
        | some _, some text => some (.contentBlockDelta text)
        | _, _ => none
      | _, _ => none
    else if tag = "content_block_stop" then
      match (j.objGet "index").bind Json.asNatNum with
      | some _ => some .contentBlockStop
      | none => none
    else if tag = "message_delta" then
      match j.objGet "delta" with
      | some d =>
        match decodeOptStr (d.objGet "stop_reason"),
              decodeOptStr (d.objGet "stop_sequence") with
        | some _, some _ =>
          (match j.objGet "usage" with
           | none => some .messageDelta
           | some .null => some .messageDelta
           | some u => if decodeUsage u then some .messageDelta else none)
        | _, _ => none
      | none => none
    else if tag = "message_stop" then some .messageStop
    else if tag = "ping" then some .ping
    else none

/-- Model of `serde_json::from_str::<StreamEvent>`. -/
def streamEventFromStr (p : String) : Except JErr StreamEvent :=
  match jsonFromStr p with
  | .error e => .error e
  | .ok j =>
    match decodeStreamEvent j with
    | some ev => .ok ev
    | none => .error .other

/-- The Anthropic-format fallback (anthropic.rs lines 809-848): parse the
payload as a `StreamEvent`; skip premature-EOF parse failures; yield an
internal error for other failures unless the payload is `[DONE]` or contains
`HEARTBEAT`. -/
def anthropicBranch (st : DecSt) (jsonStr : String) :
    DecSt × List AdapterItem × Bool :=
  match streamEventFromStr jsonStr with
  | .ok ev =>
    let st :=
      match ev with
      | .contentBlockDelta t => { st with contentBuffer := st.contentBuffer ++ t }
      | .messageStop => { st with streamEnded := true }
      | _ => st
    (st, [AdapterItem.ev ev], false)
  | .error .eof => (st, [], false)
  | .error .other =>
    if !(jsonStr == "[DONE]") && !(strContains jsonStr "HEARTBEAT") then
      (st, [AdapterItem.parseErr], false)
    else (st, [], false)

/-- The check at anthropic.rs lines 797-805: a parsed value with no `type`
field but with a `choices` field is logged and skipped; otherwise control
falls through to the Anthropic-format parse. -/
def noTypeCheck (st : DecSt) (jsonStr : String) (v : Json) :
    DecSt × List AdapterItem × Bool :=
  if (v.objGet "type").isNone && (v.objGet "choices").isSome then (st, [], false)
  else anthropicBranch st jsonStr

/-- The OpenAI-format branch (anthropic.rs lines 761-806), entered when the
parsed payload has an array-valued `choices` field. -/
def openaiBranch (st : DecSt) (jsonStr : String) (v : Json)
    (choices : List Json) : DecSt × List AdapterItem × Bool :=
  match choices with
  | choice :: _ =>
    match choice.objGet "delta" with
    | some delta =>
      (match (delta.objGet "content").bind Json.asStr with
       | some c =>
         if c == "" then (st, [], false)
         else ({ st with contentBuffer := st.contentBuffer ++ c },
               [AdapterItem.ev (.contentBlockDelta c)], false)
       | none => (st, [], false))
    | none =>
      match choice.objGet "finish_reason" with
      | some fr =>
        if fr.isNull then noTypeCheck st jsonStr v
        else ({ st with streamEnded := true }, [AdapterItem.ev .messageStop], true)
      | none => noTypeCheck st jsonStr v
  | [] => noTypeCheck st jsonStr v

/-- Handling of one `data: ` payload (anthropic.rs lines 748-848).  The third
component is the `break` flag of the `finish_reason` branch, which aborts the
per-chunk line loop. -/
def processPayload (st : DecSt) (jsonStr : String) :
    DecSt × List AdapterItem × Bool :=
  if rustTrim jsonStr == "[DONE]" then (st, [], false)
  else
    match jsonFromStr jsonStr with
    | .ok v =>
      match (v.objGet "choices").bind Json.asArr with
      | some choices => openaiBranch st jsonStr v choices
      | none => anthropicBranch st jsonStr
    | .error _ => anthropicBranch st jsonStr

/-- The per-chunk line loop (anthropic.rs lines 740-852): blank lines and
lines not starting with `data: ` are skipped. -/
def processLines (st : DecSt) : List String → DecSt × List AdapterItem
  | [] => (st, [])
  | line :: rest =>
    if rustTrim line == "" then processLines st rest
    else if strStartsWith line "data: " then
      match processPayload st (String.mk (line.data.drop 6)) with
      | (st1, out, brk) =>
        if brk then (st1, out)
        else
          match processLines st1 rest with
          | (st2, out2) => (st2, out ++ out2)
    else processLines st rest

/-- Handling of one network chunk (anthropic.rs lines 727-853): a chunk whose
trimmed text is exactly `data: [DONE]` ends the stream; otherwise the chunk is
split into lines and each line is processed independently — no bytes are
carried over to the next chunk. -/
def processChunk (st : DecSt) (text : String) : DecSt × List AdapterItem :=
  if rustTrim text == "data: [DONE]" then
    ({ st with streamEnded := true }, [AdapterItem.ev StreamEvent.messageStop])
  else processLines st (rustLines text)

/-- The outer `while let Some(chunk) = stream.next()` loop, stopping after a
chunk that set `stream_ended` (anthropic.rs lines 725-871). -/
def decodeChunks (st : DecSt) : List String → List AdapterItem
  | [] => []
  | c :: rest =>
    match processChunk st c with
    | (st1, out) => if st1.streamEnded then out else out ++ decodeChunks st1 rest

/-- Decoding of a full upstream response delivered as a list of network
chunks. -/
def adapterDecode (chunks : List String) : List AdapterItem :=
  decodeChunks { contentBuffer := "", streamEnded := false } chunks

/-! ## Configuration lookups and endpoint selection
(`src/src/clients/anthropic.rs` lines 55-72, 537-546, 1069-1078).

`Env` is the key-value content of the `.env` file as read by
`read_env_from_dotenv` (which already trims the value and strips quotes). -/

def Env : Type := String → Option String

def get_anthropic_api_url (env : Env) : String :=
  (env "ANTHROPIC_API_URL").getD "https://api.gptsapi.net/v1/messages"

def get_claude_openai_type_api_url (env : Env) : String :=
  (env "CLAUDE_OPENAI_TYPE_API_URL").getD "https://api.claude-Plus.top/v1/chat/completions"

def get_deepseek_openai_type_api_url (env : Env) : String :=
  (env "DEEPSEEK_OPENAI_TYPE_API_URL").getD "https://ark.cn-beijing.volces.com/api/v3/chat/completions"

def get_claude_default_model (env : Env) : String :=
  (env "CLAUDE_DEFAULT_MODEL").getD "wild-3-7-sonnet-20250219"

/-- Is the optional string set and non-empty after trimming?  This is the
guard pattern of the match arms in `should_use_openai_format`. -/
def optNonEmpty : Option String → Bool
  | some s => !(rustTrim s == "")
  | none => false

/-- Model of `should_use_openai_format` (anthropic.rs lines 1069-1078): prefer
the Claude OpenAI-style URL when set and non-empty, else the Anthropic URL
when set and non-empty, else default to the OpenAI format. -/
def should_use_openai_format (env : Env) : Bool :=
  if optNonEmpty (env "CLAUDE_OPENAI_TYPE_API_URL") then true
  else if optNonEmpty (env "ANTHROPIC_API_URL") then false
  else true

/-- Endpoint selection of `chat` / `chat_stream` (anthropic.rs lines 537-546
and 658-667) as a function of the selected model name. -/
def chatApiUrl (env : Env) (modelStr : String) : String :=
  if strStartsWith modelStr "deepseek" || modelStr == "deepclaude" then
    get_deepseek_openai_type_api_url env
  else if should_use_openai_format env then
    get_claude_openai_type_api_url env
  else
    get_anthropic_api_url env

/-! ## Request building (`build_request`, anthropic.rs lines 401-482). -/

inductive Role
  | user
  | assistant
  | system
deriving DecidableEq

structure Message where
  role : Role
  content : String
deriving DecidableEq

structure AnthropicMessage where
  role : String
  content : String
deriving DecidableEq

/-- The message filter and conversion of `build_request` (lines 408-420):
system-role messages and messages whose content is whitespace-only are
dropped; the remaining roles are rendered as strings.  The `Role::System` arm
is `unreachable!()` in the source because the first filter removes it; the
total completion chosen here renders it as "system". -/
def filteredMessages (msgs : List Message) : List AnthropicMessage :=
  ((msgs.filter (fun m => !(m.role == Role.system))).filter
      (fun m => !(rustTrim m.content == ""))).map
    (fun m =>
      { role := match m.role with
                | Role.user => "user"
                | Role.assistant => "assistant"
                | Role.system => "system",
        content := m.content })

def encodeMessages (msgs : List AnthropicMessage) : Json :=
  Json.arr (msgs.map (fun m => Json.obj [("role", Json.str m.role), ("content", Json.str m.content)]))

/-- The selected model value (lines 423-426): `config.body["model"]` or the
configured default model name. -/
def modelValue (env : Env) (cfgBody : List (String × Json)) : Json :=
  (alGet cfgBody "model").getD (Json.str (get_claude_default_model env))

/-- The `max_tokens` default (lines 429-437): 4096 when the model value is a
string containing `claude-3-opus`, otherwise 8192. -/
def defaultMaxTokens (mv : Json) : Int :=
  match mv with
  | Json.str s => if strContains s "claude-3-opus" then 4096 else 8192
  | _ => 8192

/-- The merged request JSON of `build_request` (lines 440-471): the base
object, the optional `system` entry, then every `config.body` entry except the
protected keys `stream`, `messages` and `system` inserted on top. -/
def buildRequestJson (env : Env) (msgs : List Message) (system? : Option String)
    (stream : Bool) (cfgBody : List (String × Json)) : List (String × Json) :=
  let mv := modelValue env cfgBody
  let base : List (String × Json) :=
    [("messages", encodeMessages (filteredMessages msgs)),
     ("stream", Json.bool stream),
     ("model", mv),
     ("max_tokens", (alGet cfgBody "max_tokens").getD (Json.num (defaultMaxTokens mv))),
     ("temperature", (alGet cfgBody "temperature").getD (Json.dec "0.7")),
     ("top_p", (alGet cfgBody "top_p").getD (Json.dec "0.95"))]
  let base :=
    match system? with
    | some sys => alInsert base "system" (Json.str sys)
    | none => base
  let extra := cfgBody.filter
    (fun p => !(p.1 == "stream") && !(p.1 == "messages") && !(p.1 == "system"))
  extra.foldl (fun a p => alInsert a p.1 p.2) base

/-! ## Header building (`build_headers`, anthropic.rs lines 288-387). -/

/-- The authentication-dependent base headers of `build_headers` (lines
291-367).  Header names are stored lowercase, as `http::HeaderName` parsing
normalizes them. -/
def baseAuthHeaders (env : Env) (apiToken : String) (isDeepseek : Bool) :
    Except String (List (String × String)) :=
  if isDeepseek then
    match env "DEEPSEEK_API_KEY" with
    | none => Except.error "DEEPSEEK_API_KEY missing"
    | some t => Except.ok [("authorization", "Bearer " ++ t)]
  else if should_use_openai_format env then
    Except.ok [("authorization", "Bearer " ++ apiToken)]
  else
    match env "ANTHROPIC_API_KEY" with
    | none => Except.error "ANTHROPIC_API_KEY missing"
    | some t =>
      Except.ok [("x-api-key", t), ("authorization", "Bearer " ++ t),
                 ("anthropic-version", "2023-06-01"), ("accept", "text/event-stream")]

/-- Modelled from the spec: the helper `build_headers` of `src/clients/mod.rs`
(called at anthropic.rs line 381 as `super::build_headers(custom)`) is not
among the provided sources.  Per the spec ("Caller-supplied custom headers are
merged last and may override defaults except for authentication headers") it
is modelled as converting the custom map to lowercase header names while
dropping the authentication header names. -/
def modBuildHeaders (custom : List (String × String)) : List (String × String) :=
  (custom.map (fun p => (lcStr p.1, p.2))).filter
    (fun p => !(p.1 == "authorization") && !(p.1 == "x-api-key"))

/-- Model of `build_headers` (lines 288-387): authentication headers, the
common `content-type`, then the caller's custom headers merged last with
replace-on-collision semantics (`HeaderMap::extend`). -/
def build_headers (env : Env) (apiToken : String)
    (custom : Option (List (String × String))) (isDeepseek : Bool) :
    Except String (List (String × String)) :=
  match baseAuthHeaders env apiToken isDeepseek with
  | Except.error e => Except.error e
  | Except.ok hs =>
    let hs := alInsert hs "content-type" "application/json"
    match custom with
    | some cm => Except.ok (alExtend hs (modBuildHeaders cm))
    | none => Except.ok hs

/-! ## The streaming composition pipeline (`src/src/handlers.rs`,
`chat_stream`, lines 578-997).

Outbound SSE frames are modelled by `SseFrame`; a `ChunkJson` keeps exactly
the delta / finish_reason / heartbeat fields of the JSON chunk objects built
by the handler (ids, timestamps inside the JSON, model names and usage
numbers are dropped — no claim inspects them).  A `delta` field that the
source sets to JSON `null` is modelled the same as an absent field; this is
harmless because the source never emits an empty string in `content` or
`reasoning_content`. -/

structure ChunkJson where
  deltaRole : Option String
  deltaContent : Option String
  deltaReasoning : Option String
  finishReason : Option String
  heartbeat : Bool
deriving DecidableEq

inductive SseFrame
  | chunk (c : ChunkJson)
  | doneMark
  | errorChunk (msg : String)
deriving DecidableEq

/-- The initial role event (handlers.rs lines 636-648): its delta carries only
`role: "assistant"`. -/
def roleChunk : SseFrame :=
  SseFrame.chunk { deltaRole := some "assistant", deltaContent := none,
                   deltaReasoning := none, finishReason := none, heartbeat := false }

/-- A reasoning-phase chunk (lines 685-711 and 732-764): delta carries
`role: "assistant"`, `content: null` and the reasoning text. -/
def reasoningChunk (t : String) : SseFrame :=
  SseFrame.chunk { deltaRole := some "assistant", deltaContent := none,
                   deltaReasoning := some t, finishReason := none, heartbeat := false }

/-- An answer-phase content chunk (lines 895-921): delta carries
`role: "assistant"`, the content text and `reasoning_content: null`. -/
def contentChunk (t : String) : SseFrame :=
  SseFrame.chunk { deltaRole := some "assistant", deltaContent := some t,
                   deltaReasoning := none, finishReason := none, heartbeat := false }

/-- A heartbeat chunk (lines 864-875): empty delta, `heartbeat: true`. -/
def heartbeatChunk : SseFrame :=
  SseFrame.chunk { deltaRole := none, deltaContent := none,
                   deltaReasoning := none, finishReason := none, heartbeat := true }

/-- The finish chunk (lines 932-954): empty delta, `finish_reason: "stop"`. -/
def finishChunk : SseFrame :=
  SseFrame.chunk { deltaRole := none, deltaContent := none,
                   deltaReasoning := none, finishReason := some "stop", heartbeat := false }

def sentinel : String := "deepseek原始回答:"

/-- One DeepSeek upstream delta as consumed by the handler
(`choice.delta.reasoning_content` / `choice.delta.content`). -/
structure DsDelta where
  reasoning_content : Option String
  content : Option String
deriving DecidableEq

/-- One item of the DeepSeek upstream stream with its wall-clock arrival time;
`choice = none` models an `Err(_)` item or a response without choices, both of
which the loop skips silently. -/
structure DsItem where
  time : Int
  choice : Option DsDelta
deriving DecidableEq

/-- The mutable state of the reasoning loop (handlers.rs lines 628-633). -/
structure RState where
  reasoningContent : String
  normalContent : String
  lastEventTime : Int
deriving DecidableEq

/-- Handling of `choice.delta.reasoning_content` (lines 663-720). -/
def rsnPart (mode : String) (st : RState) (time : Int) (r? : Option String) :
    RState × List (Int × SseFrame) :=
  match r? with
  | none => (st, [])
  | some r =>
    if r == "" then (st, [])
    else
      let st1 := { st with reasoningContent := st.reasoningContent ++ r }
      let shouldSend := !(mode == "full") || strContains r sentinel
      if shouldSend then
        let contentToSend :=
          if mode == "full" && strContains r sentinel then fromFirstOcc r sentinel else r
        ({ st1 with lastEventTime := time }, [(time, reasoningChunk contentToSend)])
      else (st1, [])

/-- Handling of `choice.delta.content` (lines 723-772): in full mode the
fragment is forwarded as reasoning content, with the sentinel prepended to the
first fragment only. -/
def cntPart (mode : String) (st : RState) (time : Int) (c? : Option String) :
    RState × List (Int × SseFrame) :=
  match c? with
  | none => (st, [])
  | some c =>
    if c == "" then (st, [])
    else
      let isFirst := st.normalContent == ""
      let st1 := { st with normalContent := st.normalContent ++ c }
      if mode == "full" then
        ({ st1 with lastEventTime := time },
         [(time, reasoningChunk (if isFirst then sentinel ++ c else c))])
      else (st1, [])

/-- Handling of one DeepSeek stream item (lines 659-776). -/
def reasoningStep (mode : String) (st : RState) (it : DsItem) :
    RState × List (Int × SseFrame) :=
  match it.choice with
  | none => (st, [])
  | some d =>
    match rsnPart mode st it.time d.reasoning_content with
    | (st1, out1) =>
      match cntPart mode st1 it.time d.content with
      | (st2, out2) => (st2, out1 ++ out2)

/-- The reasoning-phase loop over the DeepSeek stream. -/
def reasoningLoop (mode : String) (st : RState) :
    List DsItem → RState × List (Int × SseFrame)
  | [] => (st, [])
  | it :: rest =>
    match reasoningStep mode st it with
    | (st1, out) =>
      match reasoningLoop mode st1 rest with
      | (st2, out2) => (st2, out ++ out2)

/-- One item of the Anthropic upstream stream as consumed by the answer loop:
an event or an error message. -/
inductive AntResult
  | ok (e : StreamEvent)
  | err (msg : String)
deriving DecidableEq

structure AntItem where
  time : Int
  result : AntResult
deriving DecidableEq

/-- The mutable state of the answer loop (`content_buffer` line 837 and the
continuing `last_event_time`). -/
structure AState where
  contentBuffer : String
  lastEventTime : Int
deriving DecidableEq

/-- The heartbeat check at the top of the answer loop body (lines 860-882):
emitted only when an upstream item arrives more than 15 seconds after the last
outbound chunk. -/
def hbFrames (st : AState) (time : Int) : AState × List (Int × SseFrame) :=
  if time - st.lastEventTime > 15 then
    ({ st with lastEventTime := time }, [(time, heartbeatChunk)])
  else (st, [])

inductive StepOut
  | cont (st : AState) (out : List (Int × SseFrame))
  | stop (out : List (Int × SseFrame))
  | fatal (out : List (Int × SseFrame))

/-- Handling of one Anthropic stream item (lines 857-990): `stop` is the
`MessageStop` branch (finish chunk, `[DONE]`, break), `fatal` is a non-EOF
error (error chunk, return). -/
def answerStep (st : AState) (it : AntItem) : StepOut :=
  match it.result with
  | AntResult.err msg =>
    if strContains msg "EOF while parsing" || strContains msg "unexpected end of input" then
      StepOut.cont st []
    else StepOut.fatal [(it.time, SseFrame.errorChunk msg)]
  | AntResult.ok ev =>
    match hbFrames st it.time with
    | (st1, hb) =>
      match ev with
      | StreamEvent.contentBlockDelta t =>
        if t == "" then StepOut.cont st1 hb
        else
          StepOut.cont { contentBuffer := st1.contentBuffer ++ t, lastEventTime := it.time }
            (hb ++ [(it.time, contentChunk t)])
      | StreamEvent.messageStop =>
        StepOut.stop (hb ++ [(it.time, finishChunk), (it.time, SseFrame.doneMark)])
      | _ => StepOut.cont st1 hb

def stepFrames : StepOut → List (Int × SseFrame)
  | StepOut.cont _ out => out
  | StepOut.stop out => out
  | StepOut.fatal out => out

structure AnswerRun where
  frames : List (Int × SseFrame)
  stopped : Bool
deriving DecidableEq

/-- The answer-phase loop over the Anthropic stream; `stopped` records whether
the loop ended through the `MessageStop` branch (successful completion). -/
def answerLoop (st : AState) : List AntItem → AnswerRun
  | [] => { frames := [], stopped := false }
  | it :: rest =>
    match answerStep st it with
    | StepOut.cont st1 out =>
      let r := answerLoop st1 rest
      { frames := out ++ r.frames, stopped := r.stopped }
    | StepOut.stop out => { frames := out, stopped := true }
    | StepOut.fatal out => { frames := out, stopped := false }

structure StreamRun where
  frames : List (Int × SseFrame)
  stopped : Bool
deriving DecidableEq

/-- The whole spawned streaming task (handlers.rs lines 625-994): role event,
reasoning loop, then answer loop.  `t0` is the initial `last_event_time`
(line 633), also the send time of the role event. -/
def chatStreamRun (mode : String) (t0 : Int) (ds : List DsItem)
    (ant : List AntItem) : StreamRun :=
  match reasoningLoop mode { reasoningContent := "", normalContent := "", lastEventTime := t0 } ds with
  | (rst, rOut) =>
    let a := answerLoop { contentBuffer := "", lastEventTime := rst.lastEventTime } ant
    { frames := (t0, roleChunk) :: rOut ++ a.frames, stopped := a.stopped }

/-! ## Frame predicates and derived quantities used by the claims. -/

/-- Does the chunk's delta carry a `role` field? -/
def deltaHasRole : SseFrame → Bool
  | SseFrame.chunk c => c.deltaRole.isSome
  | _ => false

/-- Is this a pure role chunk: a delta carrying a role field and neither
content nor reasoning_content? -/
def isPureRoleChunk : SseFrame → Bool
  | SseFrame.chunk c =>
    c.deltaRole.isSome && c.deltaContent.isNone && c.deltaReasoning.isNone &&
    !c.heartbeat && c.finishReason.isNone
  | _ => false

def isFinishChunk : SseFrame → Bool
  | SseFrame.chunk c => c.finishReason.isSome
  | _ => false

def isDoneMark : SseFrame → Bool
  | SseFrame.doneMark => true
  | _ => false

def isHeartbeatChunk : SseFrame → Bool
  | SseFrame.chunk c => c.heartbeat
  | _ => false

/-- Is this a reasoning-phase shaped chunk (role "assistant", no content,
some reasoning text, no finish reason, not a heartbeat)? -/
def isRsnChunk : SseFrame → Bool
  | SseFrame.chunk c =>
    c.deltaRole == some "assistant" && c.deltaContent.isNone &&
    c.deltaReasoning.isSome && c.finishReason.isNone && !c.heartbeat
  | _ => false

/-- Is this an answer-phase content chunk shape? -/
def isCntChunk : SseFrame → Bool
  | SseFrame.chunk c =>
    c.deltaRole == some "assistant" && c.deltaContent.isSome &&
    c.deltaReasoning.isNone && c.finishReason.isNone && !c.heartbeat
  | _ => false

def deltaContentOf : SseFrame → Option String
  | SseFrame.chunk c => c.deltaContent
  | _ => none

/-- Concatenation of the `content` payloads of the emitted chunks. -/
def answerContentConcat (run : StreamRun) : String :=
  joinAll ((run.frames.map Prod.snd).filterMap deltaContentOf)

/-- The non-streaming handler's `choices[0].message.content`
(handlers.rs lines 537-542): the joined Claude content block texts with
leading whitespace trimmed. -/
def nonStreamingContent (blocks : List String) : String :=
  trimStart (joinAll blocks)

/-- An answer-phase upstream consisting of the given content deltas followed
by a `MessageStop`, all arriving at time `t`. -/
def mkAnswerItems (deltas : List String) (t : Int) : List AntItem :=
  deltas.map (fun d => { time := t, result := AntResult.ok (StreamEvent.contentBlockDelta d) }) ++
    [{ time := t, result := AntResult.ok StreamEvent.messageStop }]

/-- The reasoning-upstream content fragments the loop reacts to: non-empty
`delta.content` payloads in arrival order. -/
def contentFragments (ds : List DsItem) : List String :=
  (ds.filterMap (fun it => it.choice.bind (fun d => d.content))).filter (fun c => !(c == ""))

/-- The expected full-mode forwarding of content fragments: the sentinel
prependend to the first fragment only. -/
def markFirst : List String → List SseFrame
  | [] => []
  | c :: rest => reasoningChunk (sentinel ++ c) :: rest.map reasoningChunk

/-- No reasoning fragment of the upstream contains the sentinel substring
(so in full mode no reasoning-delta is forwarded). -/
def noSentinelRsn (ds : List DsItem) : Bool :=
  ds.all (fun it =>
    match it.choice with
    | some d =>
      (match d.reasoning_content with
       | some r => !(strContains r sentinel)
       | none => true)
    | none => true)

/-! ## Auxiliary lemmas: strings. -/

theorem strData_append (a b : String) : (a ++ b).data = a.data ++ b.data := rfl

theorem strEqEmpty_iff_data (s : String) : s = "" ↔ s.data = [] := by
  cases s with
  | mk l => simp [String.ext_iff]

theorem strAppend_eq_empty (a b : String) : a ++ b = "" ↔ a = "" ∧ b = "" := by
  simp [strEqEmpty_iff_data, strData_append, List.append_eq_nil]

theorem strEmpty_append (s : String) : "" ++ s = s := by
  cases s with
  | mk l => rfl

theorem joinAll_append (xs ys : List String) :
    joinAll (xs ++ ys) = joinAll xs ++ joinAll ys := by
  induction xs with
  | nil => simp [joinAll, strEmpty_append]
  | cons x xs ih => simp [joinAll, ih, String.append_assoc]

/-! ## Auxiliary lemmas: association lists. -/

theorem alGet_alInsert_ne {α : Type} (m : List (String × α)) (k' k : String) (v : α)
    (h : (k' == k) = false) : alGet (alInsert m k' v) k = alGet m k := by
  induction m with
  | nil => simp [alInsert, alGet, h]
  | cons p rest ih =>
    by_cases hpk : (p.1 == k') = true
    · have hk : (p.1 == k) = false := by
        have := beq_iff_eq.mp hpk
        subst this
        exact h
      simpa [alInsert, alGet, hpk, hk] using ih
    · simp only [alInsert, List.filter_cons, hpk] at *
      by_cases hk : (p.1 == k) = true
      · simp [alGet, hk]
      · simp only [Bool.not_eq_true] at hk hpk
        simpa [alGet, hk, hpk] using ih

theorem alGet_foldl_notmem {α : Type} (xs : List (String × α)) :
    ∀ (acc : List (String × α)) (k : String),
      (∀ p ∈ xs, (p.1 == k) = false) →
      alGet (xs.foldl (fun a p => alInsert a p.1 p.2) acc) k = alGet acc k := by
  induction xs with
  | nil => intro acc k _; rfl
  | cons x xs ih =>
    intro acc k h
    have hx : (x.1 == k) = false := h x (by simp)
    have hrest : ∀ p ∈ xs, (p.1 == k) = false := fun p hp => h p (by simp [hp])
    calc alGet ((x :: xs).foldl (fun a p => alInsert a p.1 p.2) acc) k
        = alGet (xs.foldl (fun a p => alInsert a p.1 p.2) (alInsert acc x.1 x.2)) k := rfl
      _ = alGet (alInsert acc x.1 x.2) k := ih _ k hrest
      _ = alGet acc k := alGet_alInsert_ne acc x.1 k x.2 hx

theorem alGet_alExtend_notmem {α : Type} (m add : List (String × α)) (k : String)
    (h : ∀ p ∈ add, (p.1 == k) = false) :
    alGet (alExtend m add) k = alGet m k :=
  alGet_foldl_notmem add m k h

theorem alGet_alInsert_self {α : Type} (m : List (String × α)) (k : String) (v : α) :
    alGet (alInsert m k v) k = some v := by
  induction m with
  | nil => simp [alInsert, alGet]
  | cons p rest ih =>
    by_cases hpk : (p.1 == k) = true
    · simpa [alInsert, alGet, hpk] using ih
    · simp only [Bool.not_eq_true] at hpk
      simpa [alInsert, alGet, hpk] using ih

theorem alGet_alExtend_mem {α : Type} (add : List (String × α)) :
    ∀ (m : List (String × α)) (k : String) (v : α),
      namesNodup add = true → (k, v) ∈ add → alGet (alExtend m add) k = some v := by
  induction add with
  | nil => intro m k v _ hmem; cases hmem
  | cons q qs ih =>
    intro m k v hnd hmem
    have hnd' : (qs.all (fun p => !(p.1 == q.1))) = true ∧ namesNodup qs = true := by
      simpa [namesNodup, Bool.and_eq_true] using hnd
    rcases List.mem_cons.mp hmem with heq | hmem'
    · subst heq
      have hrest : ∀ p ∈ qs, (p.1 == k) = false := by
        intro p hp
        have := (List.all_eq_true.mp hnd'.1) p hp
        simpa using this
      calc alGet (alExtend m ((k, v) :: qs)) k
          = alGet (alExtend (alInsert m k v) qs) k := rfl
        _ = alGet (alInsert m k v) k := alGet_alExtend_notmem _ qs k hrest
        _ = some v := alGet_alInsert_self m k v
    · exact ih (alInsert m q.1 q.2) k v hnd'.2 hmem'

/-! ## Auxiliary lemmas: frame predicate values on the chunk constructors. -/

theorem isRsnChunk_reasoningChunk (t : String) : isRsnChunk (reasoningChunk t) = true := by
  simp [isRsnChunk, reasoningChunk]

theorem isPureRoleChunk_roleChunk : isPureRoleChunk roleChunk = true := by
  simp [isPureRoleChunk, roleChunk]

theorem isPureRoleChunk_of_isRsnChunk (f : SseFrame) (h : isRsnChunk f = true) :
    isPureRoleChunk f = false := by
  cases f with
  | chunk c =>
    simp only [isRsnChunk, Bool.and_eq_true] at h
    have hr := h.1.1.2
    cases hx : c.deltaReasoning with
    | none => rw [hx] at hr; simp at hr
    | some v => simp [isPureRoleChunk, hx]
  | doneMark => rfl
  | errorChunk m => rfl

theorem isFinishChunk_of_isRsnChunk (f : SseFrame) (h : isRsnChunk f = true) :
    isFinishChunk f = false := by
  cases f with
  | chunk c =>
    simp only [isRsnChunk, Bool.and_eq_true] at h
    simp [isFinishChunk, h.1.2]
  | doneMark => rfl
  | errorChunk m => rfl

theorem isDoneMark_of_chunk (c : ChunkJson) : isDoneMark (SseFrame.chunk c) = false := rfl

theorem isHeartbeatChunk_of_isRsnChunk (f : SseFrame) (h : isRsnChunk f = true) :
    isHeartbeatChunk f = false := by
  cases f with
  | chunk c =>
    simp only [isRsnChunk, Bool.and_eq_true] at h
    have hb : c.heartbeat = false := by simpa using h.2
    simp [isHeartbeatChunk, hb]
  | doneMark => rfl
  | errorChunk m => rfl

theorem deltaContentOf_of_isRsnChunk (f : SseFrame) (h : isRsnChunk f = true) :
    deltaContentOf f = none := by
  cases f with
  | chunk c =>
    simp only [isRsnChunk, Bool.and_eq_true] at h
    have := h.1.1.1.2
    simp only [Option.isNone_iff_eq_none] at this
    simp [deltaContentOf, this]
  | doneMark => rfl
  | errorChunk m => rfl

theorem deltaContentOf_roleChunk : deltaContentOf roleChunk = none := rfl

theorem deltaContentOf_reasoningChunk (t : String) :
    deltaContentOf (reasoningChunk t) = none := rfl

theorem deltaContentOf_heartbeatChunk : deltaContentOf heartbeatChunk = none := rfl

theorem deltaContentOf_contentChunk (t : String) :
    deltaContentOf (contentChunk t) = some t := rfl

theorem deltaContentOf_finishChunk : deltaContentOf finishChunk = none := rfl

theorem deltaContentOf_doneMark : deltaContentOf SseFrame.doneMark = none := rfl

theorem isCntChunk_contentChunk (t : String) : isCntChunk (contentChunk t) = true := by
  simp [isCntChunk, contentChunk]

theorem isHeartbeatChunk_heartbeatChunk : isHeartbeatChunk heartbeatChunk = true := rfl

theorem isPureRoleChunk_heartbeatChunk : isPureRoleChunk heartbeatChunk = false := rfl

theorem isPureRoleChunk_contentChunk (t : String) :
    isPureRoleChunk (contentChunk t) = false := by
  simp [isPureRoleChunk, contentChunk]

theorem isPureRoleChunk_finishChunk : isPureRoleChunk finishChunk = false := by
  simp [isPureRoleChunk, finishChunk]

theorem isFinishChunk_heartbeatChunk : isFinishChunk heartbeatChunk = false := rfl

theorem isFinishChunk_contentChunk (t : String) :
    isFinishChunk (contentChunk t) = false := rfl

theorem isFinishChunk_finishChunk : isFinishChunk finishChunk = true := rfl

/-! ## Auxiliary lemmas: the reasoning-phase loop. -/

theorem rsnPart_shape (mode : String) (st : RState) (t : Int) (r? : Option String) :
    ∀ p ∈ (rsnPart mode st t r?).2, isRsnChunk p.2 = true := by
  intro p hp
  cases r? with
  | none => simp [rsnPart] at hp
  | some r =>
    simp only [rsnPart] at hp
    split at hp
    · simp at hp
    · split at hp
      · simp only [List.mem_singleton] at hp
        subst hp
        exact isRsnChunk_reasoningChunk _
      · simp at hp

theorem cntPart_shape (mode : String) (st : RState) (t : Int) (c? : Option String) :
    ∀ p ∈ (cntPart mode st t c?).2, isRsnChunk p.2 = true := by
  intro p hp
  cases c? with
  | none => simp [cntPart] at hp
  | some c =>
    simp only [cntPart] at hp
    split at hp
    · simp at hp
    · split at hp
      · simp only [List.mem_singleton] at hp
        subst hp
        exact isRsnChunk_reasoningChunk _
      · simp at hp

theorem reasoningStep_shape (mode : String) (st : RState) (it : DsItem) :
    ∀ p ∈ (reasoningStep mode st it).2, isRsnChunk p.2 = true := by
  intro p hp
  cases hch : it.choice with
  | none => simp [reasoningStep, hch] at hp
  | some d =>
    simp only [reasoningStep, hch] at hp
    rcases h1 : rsnPart mode st it.time d.reasoning_content with ⟨st1, out1⟩
    rw [h1] at hp
    rcases h2 : cntPart mode st1 it.time d.content with ⟨st2, out2⟩
    rw [h2] at hp
    simp only [List.mem_append] at hp
    rcases hp with hp | hp
    · have := rsnPart_shape mode st it.time d.reasoning_content p
      rw [h1] at this
      exact this hp
    · have := cntPart_shape mode st1 it.time d.content p
      rw [h2] at this
      exact this hp

theorem reasoningLoop_shape (mode : String) (ds : List DsItem) : ∀ st : RState,
    ∀ p ∈ (reasoningLoop mode st ds).2, isRsnChunk p.2 = true := by
  induction ds with
  | nil => intro st p hp; simp [reasoningLoop] at hp
  | cons it rest ih =>
    intro st p hp
    simp only [reasoningLoop] at hp
    rcases h1 : reasoningStep mode st it with ⟨st1, out⟩
    rw [h1] at hp
    rcases h2 : reasoningLoop mode st1 rest with ⟨st2, out2⟩
    rw [h2] at hp
    simp only [List.mem_append] at hp
    rcases hp with hp | hp
    · have := reasoningStep_shape mode st it p
      rw [h1] at this
      exact this hp
    · have := ih st1 p
      rw [h2] at this
      exact this hp

theorem rsnPart_full_out (st : RState) (t : Int) (r? : Option String)
    (h : ∀ r, r? = some r → strContains r sentinel = false) :
    (rsnPart "full" st t r?).2 = [] ∧
    (rsnPart "full" st t r?).1.normalContent = st.normalContent := by
  cases r? with
  | none => exact ⟨rfl, rfl⟩
  | some r =>
    have hr := h r rfl
    simp only [rsnPart]
    split
    · exact ⟨rfl, rfl⟩
    · simp [hr]

theorem cntPart_none (mode : String) (st : RState) (t : Int) :
    cntPart mode st t none = (st, []) := rfl

theorem cntPart_empty (mode : String) (st : RState) (t : Int) :
    cntPart mode st t (some "") = (st, []) := by
  simp [cntPart]

theorem cntPart_full_cons (st : RState) (t : Int) (c : String) (h : (c == "") = false) :
    cntPart "full" st t (some c) =
      ({ st with normalContent := st.normalContent ++ c, lastEventTime := t },
       [(t, reasoningChunk (if st.normalContent == "" then sentinel ++ c else c))]) := by
  simp [cntPart, h]

theorem reasoningLoop_cons (mode : String) (st : RState) (it : DsItem)
    (rest : List DsItem) :
    reasoningLoop mode st (it :: rest) =
      ((reasoningLoop mode (reasoningStep mode st it).1 rest).1,
       (reasoningStep mode st it).2 ++
         (reasoningLoop mode (reasoningStep mode st it).1 rest).2) := by
  simp only [reasoningLoop]

theorem reasoningLoop_full_content (ds : List DsItem) : ∀ st : RState,
    noSentinelRsn ds = true →
    ((reasoningLoop "full" st ds).2.map Prod.snd) =
      (if st.normalContent == "" then markFirst (contentFragments ds)
       else (contentFragments ds).map reasoningChunk) := by
  induction ds with
  | nil =>
    intro st _
    simp only [reasoningLoop, contentFragments, List.filterMap_nil, List.filter_nil,
      markFirst, List.map_nil]
    split <;> rfl
  | cons it rest ih =>
    intro st hns
    have hns' : (match it.choice with
        | some d =>
          (match d.reasoning_content with
           | some r => !(strContains r sentinel)
           | none => true)
        | none => true) = true ∧ noSentinelRsn rest = true := by
      simpa [noSentinelRsn, List.all_cons, Bool.and_eq_true] using hns
    rw [reasoningLoop_cons]
    cases hch : it.choice with
    | none =>
      have hcf : contentFragments (it :: rest) = contentFragments rest := by
        simp [contentFragments, List.filterMap_cons, hch]
      have hstep : reasoningStep "full" st it = (st, []) := by
        simp [reasoningStep, hch]
      rw [hcf, hstep]
      simpa using ih st hns'.2
    | some d =>
      have hr : ∀ r, d.reasoning_content = some r → strContains r sentinel = false := by
        intro r hrr
        have hx := hns'.1
        simp only [hch, hrr] at hx
        simpa using hx
      obtain ⟨hout1, hnc1⟩ := rsnPart_full_out st it.time d.reasoning_content hr
      rcases h1 : rsnPart "full" st it.time d.reasoning_content with ⟨st1, out1⟩
      rw [h1] at hout1 hnc1
      simp only at hout1 hnc1
      subst hout1
      cases hc : d.content with
      | none =>
        have hcf : contentFragments (it :: rest) = contentFragments rest := by
          simp [contentFragments, List.filterMap_cons, hch, hc]
        have hstep : reasoningStep "full" st it = (st1, []) := by
          simp [reasoningStep, hch, h1, hc, cntPart_none]
        rw [hcf, hstep]
        have happ := ih st1 hns'.2
        rw [hnc1] at happ
        simpa using happ
      | some c =>
        by_cases hcE : (c == "") = true
        · have hce : c = "" := beq_iff_eq.mp hcE
          subst hce
          have hcf : contentFragments (it :: rest) = contentFragments rest := by
            simp [contentFragments, List.filterMap_cons, hch, hc]
          have hstep : reasoningStep "full" st it = (st1, []) := by
            simp [reasoningStep, hch, h1, hc, cntPart_empty]
          rw [hcf, hstep]
          have happ := ih st1 hns'.2
          rw [hnc1] at happ
          simpa using happ
        · have hcE' : (c == "") = false := by
            simpa using hcE
          have hcf : contentFragments (it :: rest) = c :: contentFragments rest := by
            simp [contentFragments, List.filterMap_cons, hch, hc, List.filter_cons, hcE']
          have hstep : reasoningStep "full" st it =
              (⟨st1.reasoningContent, st1.normalContent ++ c, it.time⟩,
               [(it.time,
                 reasoningChunk (if st1.normalContent == "" then sentinel ++ c else c))]) := by
            simp [reasoningStep, hch, h1, hc, cntPart_full_cons st1 it.time c hcE']
          rw [hcf, hstep]
          have hne : ((st1.normalContent ++ c) == "") = false := by
            apply beq_eq_false_iff_ne.mpr
            intro hcontra
            exact (beq_eq_false_iff_ne.mp hcE') ((strAppend_eq_empty _ _).mp hcontra).2
          have happ := ih ⟨st1.reasoningContent, st1.normalContent ++ c, it.time⟩ hns'.2
          simp only [hne, Bool.false_eq_true, if_false] at happ
          rw [hnc1] at happ ⊢
          by_cases hst : (st.normalContent == "") = true
          · simp [hst, markFirst, happ]
          · simp only [Bool.not_eq_true] at hst
            simp [hst, happ]

/-! ## Auxiliary lemmas: the answer-phase loop. -/

theorem answerLoop_cons_cont (st st1 : AState) (out : List (Int × SseFrame))
    (it : AntItem) (rest : List AntItem) (h : answerStep st it = StepOut.cont st1 out) :
    answerLoop st (it :: rest) =
      { frames := out ++ (answerLoop st1 rest).frames,
        stopped := (answerLoop st1 rest).stopped } := by
  simp [answerLoop, h]

theorem answerLoop_cons_stop (st : AState) (out : List (Int × SseFrame))
    (it : AntItem) (rest : List AntItem) (h : answerStep st it = StepOut.stop out) :
    answerLoop st (it :: rest) = { frames := out, stopped := true } := by
  simp [answerLoop, h]

theorem answerLoop_cons_fatal (st : AState) (out : List (Int × SseFrame))
    (it : AntItem) (rest : List AntItem) (h : answerStep st it = StepOut.fatal out) :
    answerLoop st (it :: rest) = { frames := out, stopped := false } := by
  simp [answerLoop, h]

/-- Classification of one answer-loop step: either the loop continues and every
emitted frame is a heartbeat or a content chunk, or it stops with optional
heartbeat followed by the finish chunk and the `[DONE]` sentinel, or it fails
fatally. -/
theorem answerStep_cases (st : AState) (it : AntItem) :
    (∃ st1 out, answerStep st it = StepOut.cont st1 out ∧
       ∀ p ∈ out, p.2 = heartbeatChunk ∨ ∃ t, p.2 = contentChunk t) ∨
    (∃ pre, answerStep st it =
        StepOut.stop (pre ++ [(it.time, finishChunk), (it.time, SseFrame.doneMark)]) ∧
       ∀ p ∈ pre, p.2 = heartbeatChunk) ∨
    (∃ out, answerStep st it = StepOut.fatal out) := by
  cases hres : it.result with
  | err msg =>
    by_cases heof : (strContains msg "EOF while parsing" ||
        strContains msg "unexpected end of input") = true
    · left
      refine ⟨st, [], ?_, by simp⟩
      simp [answerStep, hres, heof]
    · right; right
      refine ⟨[(it.time, SseFrame.errorChunk msg)], ?_⟩
      simp only [Bool.not_eq_true] at heof
      simp [answerStep, hres, heof]
  | ok ev =>
    by_cases hcond : it.time - st.lastEventTime > 15
    · cases ev with
      | contentBlockDelta t =>
        by_cases ht : (t == "") = true
        · left
          refine ⟨{ st with lastEventTime := it.time }, [(it.time, heartbeatChunk)], ?_, ?_⟩
          · simp [answerStep, hres, hbFrames, hcond, ht]
          · intro p hp
            simp only [List.mem_singleton] at hp
            subst hp
            exact Or.inl rfl
        · left
          simp only [Bool.not_eq_true] at ht
          refine ⟨{ contentBuffer := st.contentBuffer ++ t, lastEventTime := it.time },
            [(it.time, heartbeatChunk), (it.time, contentChunk t)], ?_, ?_⟩
          · simp [answerStep, hres, hbFrames, hcond, ht]
          · intro p hp
            simp only [List.mem_cons] at hp
            rcases hp with rfl | rfl | hp
            · exact Or.inl rfl
            · exact Or.inr ⟨t, rfl⟩
            · exact absurd hp (List.not_mem_nil p)
      | messageStop =>
        right; left
        refine ⟨[(it.time, heartbeatChunk)], ?_, ?_⟩
        · simp [answerStep, hres, hbFrames, hcond]
        · intro p hp
          simp only [List.mem_singleton] at hp
          subst hp
          rfl
      | messageStart =>
        left
        refine ⟨{ st with lastEventTime := it.time }, [(it.time, heartbeatChunk)], ?_, ?_⟩
        · simp [answerStep, hres, hbFrames, hcond]
        · intro p hp
          simp only [List.mem_singleton] at hp
          subst hp
          exact Or.inl rfl
      | contentBlockStart =>
        left
        refine ⟨{ st with lastEventTime := it.time }, [(it.time, heartbeatChunk)], ?_, ?_⟩
        · simp [answerStep, hres, hbFrames, hcond]
        · intro p hp
          simp only [List.mem_singleton] at hp
          subst hp
          exact Or.inl rfl
      | contentBlockStop =>
        left
        refine ⟨{ st with lastEventTime := it.time }, [(it.time, heartbeatChunk)], ?_, ?_⟩
        · simp [answerStep, hres, hbFrames, hcond]
        · intro p hp
          simp only [List.mem_singleton] at hp
          subst hp
          exact Or.inl rfl
      | messageDelta =>
        left
        refine ⟨{ st with lastEventTime := it.time }, [(it.time, heartbeatChunk)], ?_, ?_⟩
        · simp [answerStep, hres, hbFrames, hcond]
        · intro p hp
          simp only [List.mem_singleton] at hp
          subst hp
          exact Or.inl rfl
      | ping =>
        left
        refine ⟨{ st with lastEventTime := it.time }, [(it.time, heartbeatChunk)], ?_, ?_⟩
        · simp [answerStep, hres, hbFrames, hcond]
        · intro p hp
          simp only [List.mem_singleton] at hp
          subst hp
          exact Or.inl rfl
    · cases ev with
      | contentBlockDelta t =>
        by_cases ht : (t == "") = true
        · left
          refine ⟨st, [], ?_, by simp⟩
          simp [answerStep, hres, hbFrames, hcond, ht]
        · left
          simp only [Bool.not_eq_true] at ht
          refine ⟨{ contentBuffer := st.contentBuffer ++ t, lastEventTime := it.time },
            [(it.time, contentChunk t)], ?_, ?_⟩
          · simp [answerStep, hres, hbFrames, hcond, ht]
          · intro p hp
            simp only [List.mem_singleton] at hp
            subst hp
            exact Or.inr ⟨t, rfl⟩
      | messageStop =>
        right; left
        refine ⟨[], ?_, by simp⟩
        simp [answerStep, hres, hbFrames, hcond]
      | messageStart =>
        left
        refine ⟨st, [], ?_, by simp⟩
        simp [answerStep, hres, hbFrames, hcond]
      | contentBlockStart =>
        left
        refine ⟨st, [], ?_, by simp⟩
        simp [answerStep, hres, hbFrames, hcond]
      | contentBlockStop =>
        left
        refine ⟨st, [], ?_, by simp⟩
        simp [answerStep, hres, hbFrames, hcond]
      | messageDelta =>
        left
        refine ⟨st, [], ?_, by simp⟩
        simp [answerStep, hres, hbFrames, hcond]
      | ping =>
        left
        refine ⟨st, [], ?_, by simp⟩
        simp [answerStep, hres, hbFrames, hcond]

/-- When the answer loop ends through the `MessageStop` branch, its frames are
heartbeat/content frames followed by exactly the finish chunk and the `[DONE]`
sentinel. -/
theorem answerLoop_stopped_shape (items : List AntItem) : ∀ st : AState,
    (answerLoop st items).stopped = true →
    ∃ pre t1 t2,
      (answerLoop st items).frames = pre ++ [(t1, finishChunk), (t2, SseFrame.doneMark)] ∧
      ∀ p ∈ pre, p.2 = heartbeatChunk ∨ ∃ t, p.2 = contentChunk t := by
  induction items with
  | nil => intro st h; simp [answerLoop] at h
  | cons it rest ih =>
    intro st h
    rcases answerStep_cases st it with ⟨st1, out, heq, hmem⟩ | ⟨pre, heq, hmem⟩ | ⟨out, heq⟩
    · rw [answerLoop_cons_cont st st1 out it rest heq] at h ⊢
      simp only at h
      obtain ⟨pre, t1, t2, hfr, hpre⟩ := ih st1 h
      refine ⟨out ++ pre, t1, t2, ?_, ?_⟩
      · simp only [hfr, List.append_assoc]
      · intro p hp
        rcases List.mem_append.mp hp with hp | hp
        · exact hmem p hp
        · exact hpre p hp
    · rw [answerLoop_cons_stop st _ it rest heq]
      refine ⟨pre, it.time, it.time, rfl, ?_⟩
      intro p hp
      exact Or.inl (hmem p hp)
    · rw [answerLoop_cons_fatal st out it rest heq] at h
      simp at h

theorem hbFrames_shape (st : AState) (t : Int) :
    (hbFrames st t).2 = [] ∨ (hbFrames st t).2 = [(t, heartbeatChunk)] := by
  simp only [hbFrames]
  split
  · exact Or.inr rfl
  · exact Or.inl rfl

theorem filterMap_content_hb_append (st : AState) (t : Int)
    (rest : List (Int × SseFrame)) :
    (((hbFrames st t).2 ++ rest).map Prod.snd).filterMap deltaContentOf =
      (rest.map Prod.snd).filterMap deltaContentOf := by
  rcases hbFrames_shape st t with h | h <;> rw [h]
  · rw [List.nil_append]
  · simp only [List.cons_append, List.nil_append, List.map_cons, List.filterMap_cons,
      deltaContentOf_heartbeatChunk]

theorem answerLoop_content_concat (deltas : List String) (t : Int) : ∀ st : AState,
    joinAll
      (((answerLoop st (mkAnswerItems deltas t)).frames.map Prod.snd).filterMap
        deltaContentOf) = joinAll deltas := by
  induction deltas with
  | nil =>
    intro st
    have hitems : mkAnswerItems [] t = [⟨t, AntResult.ok StreamEvent.messageStop⟩] := by
      simp [mkAnswerItems]
    have hstep : answerStep st ⟨t, AntResult.ok StreamEvent.messageStop⟩ =
        StepOut.stop ((hbFrames st t).2 ++ [(t, finishChunk), (t, SseFrame.doneMark)]) := by
      simp only [answerStep]
    rw [hitems, answerLoop_cons_stop _ _ _ _ hstep]
    show joinAll
        ((((hbFrames st t).2 ++ [(t, finishChunk), (t, SseFrame.doneMark)]).map
          Prod.snd).filterMap deltaContentOf) = joinAll []
    rw [filterMap_content_hb_append]
    simp only [List.map_cons, List.map_nil, List.filterMap_cons, deltaContentOf_finishChunk,
      deltaContentOf_doneMark, List.filterMap_nil]
  | cons d ds ih =>
    intro st
    have hitems : mkAnswerItems (d :: ds) t =
        ⟨t, AntResult.ok (StreamEvent.contentBlockDelta d)⟩ :: mkAnswerItems ds t := by
      simp [mkAnswerItems]
    rw [hitems]
    by_cases hd : (d == "") = true
    · have hde : d = "" := beq_iff_eq.mp hd
      have hstep : answerStep st ⟨t, AntResult.ok (StreamEvent.contentBlockDelta d)⟩ =
          StepOut.cont (hbFrames st t).1 (hbFrames st t).2 := by
        simp only [answerStep]
        rcases hhb : hbFrames st t with ⟨sth, hb⟩
        simp [hd]
      rw [answerLoop_cons_cont _ _ _ _ _ hstep]
      show joinAll
          ((((hbFrames st t).2 ++
              (answerLoop (hbFrames st t).1 (mkAnswerItems ds t)).frames).map
            Prod.snd).filterMap deltaContentOf) = joinAll (d :: ds)
      rw [filterMap_content_hb_append, ih _]
      subst hde
      show joinAll ds = "" ++ joinAll ds
      rw [strEmpty_append]
    · have hd2 : (d == "") = false := by simpa using hd
      have hstep : answerStep st ⟨t, AntResult.ok (StreamEvent.contentBlockDelta d)⟩ =
          StepOut.cont ⟨(hbFrames st t).1.contentBuffer ++ d, t⟩
            ((hbFrames st t).2 ++ [(t, contentChunk d)]) := by
        simp only [answerStep]
        rcases hhb : hbFrames st t with ⟨sth, hb⟩
        simp [hd2]
      rw [answerLoop_cons_cont _ _ _ _ _ hstep]
      show joinAll
          (((((hbFrames st t).2 ++ [(t, contentChunk d)]) ++
              (answerLoop ⟨(hbFrames st t).1.contentBuffer ++ d, t⟩
                (mkAnswerItems ds t)).frames).map
            Prod.snd).filterMap deltaContentOf) = joinAll (d :: ds)
      rw [List.append_assoc, filterMap_content_hb_append]
      simp only [List.cons_append, List.nil_append, List.map_cons, List.filterMap_cons,
        deltaContentOf_contentChunk]
      show d ++ joinAll
          (((answerLoop ⟨(hbFrames st t).1.contentBuffer ++ d, t⟩
              (mkAnswerItems ds t)).frames.map Prod.snd).filterMap deltaContentOf) =
        joinAll (d :: ds)
      rw [ih _]
      rfl


theorem reasoningLoop_no_heartbeat (mode : String) (ds : List DsItem) (st : RState) :
    ((reasoningLoop mode st ds).2.map Prod.snd).countP isHeartbeatChunk = 0 := by
  rw [List.countP_eq_zero]
  intro f hf
  simp only [List.mem_map] at hf
  obtain ⟨p, hp, rfl⟩ := hf
  have := reasoningLoop_shape mode ds st p hp
  simp [isHeartbeatChunk_of_isRsnChunk p.2 this]

theorem answerStep_heartbeat_first (st : AState) (it : AntItem) (ev : StreamEvent)
    (hok : it.result = AntResult.ok ev) (hgap : it.time - st.lastEventTime > 15) :
    (stepFrames (answerStep st it)).head? = some (it.time, heartbeatChunk) := by
  cases ev with
  | contentBlockDelta t =>
    by_cases ht : (t == "") = true <;>
      simp [answerStep, hok, hbFrames, hgap, stepFrames, ht]
  | messageStart => simp [answerStep, hok, hbFrames, hgap, stepFrames]
  | contentBlockStart => simp [answerStep, hok, hbFrames, hgap, stepFrames]
  | contentBlockStop => simp [answerStep, hok, hbFrames, hgap, stepFrames]
  | messageDelta => simp [answerStep, hok, hbFrames, hgap, stepFrames]
  | messageStop => simp [answerStep, hok, hbFrames, hgap, stepFrames]
  | ping => simp [answerStep, hok, hbFrames, hgap, stepFrames]

theorem isDoneMark_of_isRsnChunk (f : SseFrame) (h : isRsnChunk f = true) :
    isDoneMark f = false := by
  cases f with
  | chunk c => rfl
  | doneMark => simp [isRsnChunk] at h
  | errorChunk m => simp [isRsnChunk] at h

theorem reasoningLoop_no_content (mode : String) (ds : List DsItem) (st : RState) :
    (((reasoningLoop mode st ds).2.map Prod.snd).filterMap deltaContentOf) = [] := by
  rw [List.filterMap_eq_nil_iff]
  intro f hf
  obtain ⟨p, hp, rfl⟩ := List.mem_map.mp hf
  exact deltaContentOf_of_isRsnChunk p.2 (reasoningLoop_shape mode ds st p hp)

theorem alGet_eq_none {α : Type} (m : List (String × α)) (k : String)
    (h : alGet m k = none) : ∀ p ∈ m, (p.1 == k) = false := by
  induction m with
  | nil => intro p hp; cases hp
  | cons q rest ih =>
    intro p hp
    by_cases hq : (q.1 == k) = true
    · rw [alGet, hq] at h
      simp at h
    · have hq' : (q.1 == k) = false := by simpa using hq
      rw [alGet, hq'] at h
      simp only [Bool.false_eq_true, if_false] at h
      rcases List.mem_cons.mp hp with rfl | hp'
      · exact hq'
      · exact ih h p hp'

/-! ## Claim theorems. -/

/-- C2: the wire adapter is not byte-boundary-robust.  Evaluation at the
failing input: the upstream SSE record `data: {"type":"ping"}\n\n` decodes to
a single `Ping` event when delivered as one network chunk, but decodes to no
event at all when the same bytes arrive split into the two chunks
`data: {"type":` and `"ping"}\n\n` — the adapter skips the first fragment as
premature-EOF JSON and ignores the second as a non-`data:` line instead of
buffering the partial record (the `data` accumulator declared at
anthropic.rs line 718 is never used). -/
theorem c2_split_vs_whole :
    adapterDecode ["data: \x7b\"type\":\"ping\"\x7d\n\n"] =
      [AdapterItem.ev StreamEvent.ping] ∧
    adapterDecode ["data: \x7b\"type\":", "\"ping\"\x7d\n\n"] = [] ∧
    "data: \x7b\"type\":" ++ "\"ping\"\x7d\n\n" =
      "data: \x7b\"type\":\"ping\"\x7d\n\n" :=
  ⟨rfl, rfl, rfl⟩

/-- C4: in full mode, for every non-empty `ContentDelta` fragment received
from the reasoning upstream (and no reasoning fragment carrying the sentinel,
so that only content forwarding emits chunks), the engine forwards exactly one
chunk per fragment as `reasoning_content`, with the prefix
`deepseek原始回答:` prepended to the first fragment only. -/
theorem c4_full_mode_content_forwarding (t0 : Int) (ds : List DsItem)
    (h : noSentinelRsn ds = true) :
    ((reasoningLoop "full" ⟨"", "", t0⟩ ds).2.map Prod.snd) =
      markFirst (contentFragments ds) := by
  have := reasoningLoop_full_content ds ⟨"", "", t0⟩ h
  simpa using this

/-- C4 witness: two fragments `A1`, `A2` produce exactly the chunks
`deepseek原始回答:A1` and `A2`. -/
theorem c4_witness :
    noSentinelRsn [⟨0, some ⟨none, some "A1"⟩⟩, ⟨1, some ⟨none, some "A2"⟩⟩] = true ∧
    ((reasoningLoop "full" ⟨"", "", 0⟩
        [⟨0, some ⟨none, some "A1"⟩⟩, ⟨1, some ⟨none, some "A2"⟩⟩]).2.map Prod.snd) =
      markFirst (contentFragments
        [⟨0, some ⟨none, some "A1"⟩⟩, ⟨1, some ⟨none, some "A2"⟩⟩]) :=
  ⟨rfl, c4_full_mode_content_forwarding 0 _ rfl⟩

/-- C5 counterexample: the payload `{bad}` fails to parse for a reason other
than premature end of input; the adapter emits an internal parse-error item,
not a `Ping`. -/
theorem c5_counterexample :
    adapterDecode ["data: \x7bbad\x7d\n\n"] = [AdapterItem.parseErr] ∧
    adapterDecode ["data: \x7bbad\x7d\n\n"] ≠ [AdapterItem.ev StreamEvent.ping] :=
  ⟨rfl, by decide⟩

/-- C5 (amended): for every SSE data payload whose JSON fails to parse for a
reason other than a premature-end-of-input signature, the adapter yields one
internal parse-error item to its consumer (no `Ping` event), unless the
payload is the literal `[DONE]` or contains `HEARTBEAT`, which are dropped. -/
theorem c5_parse_error_item (st : DecSt) (p : String)
    (hp : jsonFromStr p = Except.error JErr.other)
    (h1 : (rustTrim p == "[DONE]") = false)
    (h2 : (p == "[DONE]") = false)
    (h3 : strContains p "HEARTBEAT" = false) :
    processPayload st p = (st, [AdapterItem.parseErr], false) := by
  simp [processPayload, anthropicBranch, streamEventFromStr, hp, h1, h2, h3]

/-- C5 witness: the payload `{bad}` satisfies the hypotheses and produces
exactly one parse-error item. -/
theorem c5_witness :
    jsonFromStr "\x7bbad\x7d" = Except.error JErr.other ∧
    processPayload ⟨"", false⟩ "\x7bbad\x7d" =
      (⟨"", false⟩, [AdapterItem.parseErr], false) :=
  ⟨rfl, c5_parse_error_item ⟨"", false⟩ "\x7bbad\x7d" rfl rfl rfl rfl⟩

/-- C6 counterexample: two successive reasoning-phase chunks 20 seconds apart
(wall clock) with no heartbeat chunk anywhere in the run — the reasoning loop
has no heartbeat logic, so the claimed cross-phase 15-second heartbeat
guarantee fails. -/
theorem c6_counterexample :
    (chatStreamRun "normal" 0
        [⟨0, some ⟨some "a", none⟩⟩, ⟨20, some ⟨some "b", none⟩⟩]
        [⟨21, AntResult.ok StreamEvent.messageStop⟩]).frames =
      [(0, roleChunk), (0, reasoningChunk "a"), (20, reasoningChunk "b"),
       (21, finishChunk), (21, SseFrame.doneMark)] ∧
    ((chatStreamRun "normal" 0
        [⟨0, some ⟨some "a", none⟩⟩, ⟨20, some ⟨some "b", none⟩⟩]
        [⟨21, AntResult.ok StreamEvent.messageStop⟩]).frames.map Prod.snd).countP
      isHeartbeatChunk = 0 :=
  ⟨rfl, rfl⟩

/-- C6 (amended): heartbeats are emitted only in the Answer phase.  The
reasoning loop never emits a heartbeat chunk, whatever the item arrival times;
in the answer loop, when an upstream item arrives more than 15 seconds of wall
time after the last outbound chunk, a heartbeat chunk is emitted before any
other frame for that item. -/
theorem c6_heartbeat_behavior :
    (∀ (mode : String) (st : RState) (ds : List DsItem),
       ((reasoningLoop mode st ds).2.map Prod.snd).countP isHeartbeatChunk = 0) ∧
    (∀ (st : AState) (it : AntItem) (ev : StreamEvent),
       it.result = AntResult.ok ev → it.time - st.lastEventTime > 15 →
       (stepFrames (answerStep st it)).head? = some (it.time, heartbeatChunk)) :=
  ⟨fun mode st ds => reasoningLoop_no_heartbeat mode ds st,
   fun st it ev hok hgap => answerStep_heartbeat_first st it ev hok hgap⟩

/-- C6 witness: an item arriving 16 seconds after the last outbound chunk
triggers a heartbeat as the first emitted frame. -/
theorem c6_witness :
    ((16 : Int) - (0 : Int) > 15) ∧
    (stepFrames (answerStep ⟨"", 0⟩ ⟨16, AntResult.ok StreamEvent.ping⟩)).head? =
      some (16, heartbeatChunk) :=
  ⟨by decide,
   c6_heartbeat_behavior.2 ⟨"", 0⟩ ⟨16, AntResult.ok StreamEvent.ping⟩
     StreamEvent.ping rfl (by decide)⟩

/-- C1 counterexample: a successful run in normal mode with one reasoning
fragment and one content fragment emits three chunks whose delta carries a
role field (the initial role chunk, the reasoning chunk and the content chunk
all carry `role: "assistant"`), so the stream does not contain exactly one
such chunk. -/
theorem c1_counterexample :
    (chatStreamRun "normal" 0 [⟨0, some ⟨some "Think", none⟩⟩]
        [⟨0, AntResult.ok (StreamEvent.contentBlockDelta "Hi")⟩,
         ⟨0, AntResult.ok StreamEvent.messageStop⟩]).stopped = true ∧
    ((chatStreamRun "normal" 0 [⟨0, some ⟨some "Think", none⟩⟩]
        [⟨0, AntResult.ok (StreamEvent.contentBlockDelta "Hi")⟩,
         ⟨0, AntResult.ok StreamEvent.messageStop⟩]).frames.map Prod.snd).countP
      deltaHasRole = 3 ∧
    ¬((chatStreamRun "normal" 0 [⟨0, some ⟨some "Think", none⟩⟩]
        [⟨0, AntResult.ok (StreamEvent.contentBlockDelta "Hi")⟩,
         ⟨0, AntResult.ok StreamEvent.messageStop⟩]).frames.map Prod.snd).countP
      deltaHasRole = 1 :=
  ⟨rfl, rfl, by decide⟩

/-- C1 (amended): for every accepted streaming request that runs to successful
completion, the outbound frame sequence is a prefix — headed by the single
chunk whose delta carries only a role field (the initial role chunk) and
containing no finish chunk and no `[DONE]` — followed by exactly one finish
chunk carrying `finish_reason` and then exactly one `[DONE]` sentinel as the
final frame.  (Reasoning and content chunks also carry a role field inside
their deltas, so the chunk counted is the one whose delta carries **only** a
role field.) -/
theorem c1_role_finish_done (mode : String) (t0 : Int) (ds : List DsItem)
    (ant : List AntItem) (h : (chatStreamRun mode t0 ds ant).stopped = true) :
    ∃ pre t1 t2,
      (chatStreamRun mode t0 ds ant).frames =
        pre ++ [(t1, finishChunk), (t2, SseFrame.doneMark)] ∧
      pre.head? = some (t0, roleChunk) ∧
      (pre.map Prod.snd).countP isPureRoleChunk = 1 ∧
      (pre.map Prod.snd).countP isFinishChunk = 0 ∧
      (pre.map Prod.snd).countP isDoneMark = 0 := by
  rcases hrl : reasoningLoop mode ⟨"", "", t0⟩ ds with ⟨rst, rOut⟩
  have hrun : chatStreamRun mode t0 ds ant =
      { frames := (t0, roleChunk) :: rOut ++
          (answerLoop ⟨"", rst.lastEventTime⟩ ant).frames,
        stopped := (answerLoop ⟨"", rst.lastEventTime⟩ ant).stopped } := by
    simp [chatStreamRun, hrl]
  rw [hrun] at h ⊢
  simp only at h
  obtain ⟨apre, t1, t2, hfr, hmem⟩ := answerLoop_stopped_shape ant ⟨"", rst.lastEventTime⟩ h
  have hrOut : ∀ f ∈ rOut.map Prod.snd,
      isPureRoleChunk f = false ∧ isFinishChunk f = false ∧ isDoneMark f = false := by
    intro f hf
    obtain ⟨p, hp, rfl⟩ := List.mem_map.mp hf
    have hshape := reasoningLoop_shape mode ds ⟨"", "", t0⟩ p (by rw [hrl]; exact hp)
    exact ⟨isPureRoleChunk_of_isRsnChunk _ hshape, isFinishChunk_of_isRsnChunk _ hshape,
      isDoneMark_of_isRsnChunk _ hshape⟩
  have hapre : ∀ f ∈ apre.map Prod.snd,
      isPureRoleChunk f = false ∧ isFinishChunk f = false ∧ isDoneMark f = false := by
    intro f hf
    obtain ⟨p, hp, rfl⟩ := List.mem_map.mp hf
    rcases hmem p hp with hhb | ⟨t, hct⟩
    · rw [hhb]
      exact ⟨isPureRoleChunk_heartbeatChunk, isFinishChunk_heartbeatChunk, rfl⟩
    · rw [hct]
      exact ⟨isPureRoleChunk_contentChunk t, isFinishChunk_contentChunk t, rfl⟩
  have hc1 : (rOut.map Prod.snd).countP isPureRoleChunk = 0 :=
    List.countP_eq_zero.mpr (fun f hf => by simp [(hrOut f hf).1])
  have hc2 : (apre.map Prod.snd).countP isPureRoleChunk = 0 :=
    List.countP_eq_zero.mpr (fun f hf => by simp [(hapre f hf).1])
  have hc3 : (rOut.map Prod.snd).countP isFinishChunk = 0 :=
    List.countP_eq_zero.mpr (fun f hf => by simp [(hrOut f hf).2.1])
  have hc4 : (apre.map Prod.snd).countP isFinishChunk = 0 :=
    List.countP_eq_zero.mpr (fun f hf => by simp [(hapre f hf).2.1])
  have hc5 : (rOut.map Prod.snd).countP isDoneMark = 0 :=
    List.countP_eq_zero.mpr (fun f hf => by simp [(hrOut f hf).2.2])
  have hc6 : (apre.map Prod.snd).countP isDoneMark = 0 :=
    List.countP_eq_zero.mpr (fun f hf => by simp [(hapre f hf).2.2])
  refine ⟨(t0, roleChunk) :: (rOut ++ apre), t1, t2, ?_, rfl, ?_, ?_, ?_⟩
  · rw [hfr]
    simp [List.append_assoc]
  · simp only [List.map_cons, List.map_append, List.countP_cons, List.countP_append,
      hc1, hc2, isPureRoleChunk_roleChunk]
    simp
  · simp only [List.map_cons, List.map_append, List.countP_cons, List.countP_append,
      hc3, hc4]
    simp [isFinishChunk, roleChunk]
  · simp only [List.map_cons, List.map_append, List.countP_cons, List.countP_append,
      hc5, hc6]
    simp [isDoneMark, roleChunk]

/-- C1 witness: a concrete successful run satisfying the hypothesis and the
amended conclusion. -/
theorem c1_witness :
    (chatStreamRun "normal" 0 [⟨0, some ⟨some "Think", none⟩⟩]
        [⟨0, AntResult.ok (StreamEvent.contentBlockDelta "Hi")⟩,
         ⟨0, AntResult.ok StreamEvent.messageStop⟩]).stopped = true ∧
    (∃ pre t1 t2,
      (chatStreamRun "normal" 0 [⟨0, some ⟨some "Think", none⟩⟩]
          [⟨0, AntResult.ok (StreamEvent.contentBlockDelta "Hi")⟩,
           ⟨0, AntResult.ok StreamEvent.messageStop⟩]).frames =
        pre ++ [(t1, finishChunk), (t2, SseFrame.doneMark)] ∧
      pre.head? = some (0, roleChunk) ∧
      (pre.map Prod.snd).countP isPureRoleChunk = 1 ∧
      (pre.map Prod.snd).countP isFinishChunk = 0 ∧
      (pre.map Prod.snd).countP isDoneMark = 0) :=
  ⟨rfl, c1_role_finish_done "normal" 0 _ _ rfl⟩

/-- C3 counterexample: a Claude response whose only content fragment is
`" Hi"`.  The non-streaming handler reports `"Hi"` (it applies `trim_start`),
while the streamed Answer-phase chunks concatenate to `" Hi"`, so the two are
not equal as the claim states. -/
theorem c3_counterexample :
    nonStreamingContent [" Hi"] ≠
      answerContentConcat (chatStreamRun "normal" 0 [] (mkAnswerItems [" Hi"] 0)) := by
  decide

/-- C3 (amended): with mode and configuration held constant and the same
upstream content (the joined non-streaming content blocks equal the joined
streamed deltas), the non-streaming `choices[0].message.content` equals the
concatenation of the Answer-phase `content` payloads **after left-trimming**
that concatenation — the non-streaming handler applies `trim_start` to the
joined content (handlers.rs line 541), the streaming handler does not. -/
theorem c3_stream_vs_nonstream (mode : String) (t0 tA : Int) (ds : List DsItem)
    (blocks deltas : List String) (h : joinAll blocks = joinAll deltas) :
    nonStreamingContent blocks =
      trimStart
        (answerContentConcat (chatStreamRun mode t0 ds (mkAnswerItems deltas tA))) := by
  have hconcat :
      answerContentConcat (chatStreamRun mode t0 ds (mkAnswerItems deltas tA)) =
        joinAll deltas := by
    rcases hrl : reasoningLoop mode ⟨"", "", t0⟩ ds with ⟨rst, rOut⟩
    have hrun : chatStreamRun mode t0 ds (mkAnswerItems deltas tA) =
        { frames := (t0, roleChunk) :: rOut ++
            (answerLoop ⟨"", rst.lastEventTime⟩ (mkAnswerItems deltas tA)).frames,
          stopped :=
            (answerLoop ⟨"", rst.lastEventTime⟩ (mkAnswerItems deltas tA)).stopped } := by
      simp [chatStreamRun, hrl]
    rw [answerContentConcat, hrun]
    have hno : (rOut.map Prod.snd).filterMap deltaContentOf = [] := by
      have := reasoningLoop_no_content mode ds ⟨"", "", t0⟩
      rw [hrl] at this
      exact this
    simp only [List.map_cons, List.map_append, List.filterMap_cons,
      deltaContentOf_roleChunk, List.filterMap_append, hno, List.nil_append]
    exact answerLoop_content_concat deltas tA ⟨"", rst.lastEventTime⟩
  rw [hconcat, nonStreamingContent, h]

/-- C3 witness: with content `"Hi"` on both sides the amended equality holds. -/
theorem c3_witness :
    joinAll ["Hi"] = joinAll ["Hi"] ∧
    nonStreamingContent ["Hi"] =
      trimStart
        (answerContentConcat (chatStreamRun "normal" 0 [] (mkAnswerItems ["Hi"] 0))) :=
  ⟨rfl, c3_stream_vs_nonstream "normal" 0 0 [] ["Hi"] ["Hi"] rfl⟩

/-- C7 counterexample: the model name `opus-4` contains the substring `opus`
but the default `max_tokens` comes out as 8192, not 4096 — the source tests
for the substring `claude-3-opus`, not `opus`. -/
theorem c7_counterexample :
    strContains "opus-4" "opus" = true ∧
    alGet (buildRequestJson (fun _ => none) [] none false
        [("model", Json.str "opus-4")]) "max_tokens" = some (Json.num 8192) :=
  ⟨rfl, rfl⟩

/-- C7 (amended): when the request configuration supplies no `max_tokens`, the
outbound request's `max_tokens` defaults to 4096 for every selected model name
that contains the substring `claude-3-opus`, and to 8192 for every model name
that does not. -/
theorem c7_max_tokens_default (env : Env) (msgs : List Message)
    (system? : Option String) (stream : Bool) (cfgBody : List (String × Json))
    (s : String)
    (hmax : alGet cfgBody "max_tokens" = none)
    (hmodel : modelValue env cfgBody = Json.str s) :
    alGet (buildRequestJson env msgs system? stream cfgBody) "max_tokens" =
      some (Json.num (if strContains s "claude-3-opus" then 4096 else 8192)) := by
  have hextra : ∀ p ∈ cfgBody.filter
      (fun p => !(p.1 == "stream") && !(p.1 == "messages") && !(p.1 == "system")),
      (p.1 == "max_tokens") = false := by
    intro p hp
    exact alGet_eq_none cfgBody "max_tokens" hmax p (List.mem_of_mem_filter hp)
  rw [buildRequestJson.eq_def]
  simp only []
  rw [alGet_foldl_notmem _ _ _ hextra]
  have hbase : alGet
      [("messages", encodeMessages (filteredMessages msgs)),
       ("stream", Json.bool stream),
       ("model", modelValue env cfgBody),
       ("max_tokens",
        (alGet cfgBody "max_tokens").getD
          (Json.num (defaultMaxTokens (modelValue env cfgBody)))),
       ("temperature", (alGet cfgBody "temperature").getD (Json.dec "0.7")),
       ("top_p", (alGet cfgBody "top_p").getD (Json.dec "0.95"))] "max_tokens" =
      some (Json.num (if strContains s "claude-3-opus" then 4096 else 8192)) := by
    rw [hmax]
    simp only [alGet, Option.getD]
    norm_num
    rw [hmodel]
    rfl
  cases system? with
  | none => exact hbase
  | some sys =>
    rw [alGet_alInsert_ne _ "system" "max_tokens" _ (by decide)]
    exact hbase

/-- C7 witness: with model `claude-3-opus-20240229` and no `max_tokens` in the
configuration, the default is 4096. -/
theorem c7_witness :
    alGet [("model", Json.str "claude-3-opus-20240229")] "max_tokens" = none ∧
    modelValue (fun _ => none) [("model", Json.str "claude-3-opus-20240229")] =
      Json.str "claude-3-opus-20240229" ∧
    alGet (buildRequestJson (fun _ => none) [] none true
        [("model", Json.str "claude-3-opus-20240229")]) "max_tokens" =
      some (Json.num 4096) :=
  ⟨rfl, rfl,
   c7_max_tokens_default (fun _ => none) [] none true
     [("model", Json.str "claude-3-opus-20240229")] "claude-3-opus-20240229" rfl rfl⟩

/-- C8 counterexample: with neither URL configured in `.env`, a non-DeepSeek
request goes to the default Claude OpenAI-style endpoint, not to the
Anthropic-native endpoint as claimed. -/
theorem c8_counterexample :
    chatApiUrl (fun _ => none) "claude-3-sonnet" =
      "https://api.claude-Plus.top/v1/chat/completions" ∧
    get_anthropic_api_url (fun _ => none) = "https://api.gptsapi.net/v1/messages" ∧
    ("https://api.claude-Plus.top/v1/chat/completions" : String) ≠
      "https://api.gptsapi.net/v1/messages" :=
  ⟨rfl, rfl, by decide⟩

/-- C8 (amended): for every request whose selected model name neither starts
with `deepseek` nor equals `deepclaude`: if the configured Claude OpenAI-style
URL is set and non-empty the request goes to that endpoint; otherwise, if the
Anthropic URL is set and non-empty it goes to the Anthropic-native endpoint;
and when neither is configured it goes to the (default) Claude OpenAI-style
endpoint. -/
theorem c8_endpoint_selection (env : Env) (modelStr : String)
    (h : (strStartsWith modelStr "deepseek" || modelStr == "deepclaude") = false) :
    chatApiUrl env modelStr =
      if optNonEmpty (env "CLAUDE_OPENAI_TYPE_API_URL") then
        get_claude_openai_type_api_url env
      else if optNonEmpty (env "ANTHROPIC_API_URL") then get_anthropic_api_url env
      else get_claude_openai_type_api_url env := by
  by_cases h1 : optNonEmpty (env "CLAUDE_OPENAI_TYPE_API_URL") = true
  · simp [chatApiUrl, should_use_openai_format, h, h1]
  · simp only [Bool.not_eq_true] at h1
    by_cases h2 : optNonEmpty (env "ANTHROPIC_API_URL") = true
    · simp [chatApiUrl, should_use_openai_format, h, h1, h2]
    · simp only [Bool.not_eq_true] at h2
      simp [chatApiUrl, should_use_openai_format, h, h1, h2]

/-- C8 witness: the empty environment with model `claude-3-sonnet`. -/
theorem c8_witness :
    (strStartsWith "claude-3-sonnet" "deepseek" ||
      "claude-3-sonnet" == "deepclaude") = false ∧
    chatApiUrl (fun _ => none) "claude-3-sonnet" =
      (if optNonEmpty ((fun _ => none : Env) "CLAUDE_OPENAI_TYPE_API_URL") then
        get_claude_openai_type_api_url (fun _ => none)
      else if optNonEmpty ((fun _ => none : Env) "ANTHROPIC_API_URL") then
        get_anthropic_api_url (fun _ => none)
      else get_claude_openai_type_api_url (fun _ => none)) :=
  ⟨rfl, c8_endpoint_selection (fun _ => none) "claude-3-sonnet" rfl⟩

/-- C9: caller-supplied custom headers are merged into the header map last and
may override default headers, except that the authentication headers
(`authorization`, `x-api-key`) set by the client are never replaced: the final
map agrees with the custom-free map on both authentication headers, and any
other custom header entry wins in the final map.  (The custom-map conversion
helper lives in `src/clients/mod.rs`, which is not among the provided sources;
it is modelled from the spec — see `modBuildHeaders`.) -/
theorem c9_custom_headers (env : Env) (tok : String)
    (custom : List (String × String)) (isDs : Bool)
    (hs hs0 : List (String × String)) (k v : String)
    (hok : build_headers env tok (some custom) isDs = Except.ok hs)
    (h0 : build_headers env tok none isDs = Except.ok hs0)
    (hmem : (k, v) ∈ modBuildHeaders custom)
    (hnd : namesNodup (modBuildHeaders custom) = true) :
    alGet hs "authorization" = alGet hs0 "authorization" ∧
    alGet hs "x-api-key" = alGet hs0 "x-api-key" ∧
    alGet hs k = some v := by
  cases hb : baseAuthHeaders env tok isDs with
  | error e =>
    rw [build_headers, hb] at hok
    cases hok
  | ok base =>
    rw [build_headers, hb] at hok h0
    simp only at hok h0
    have hs_eq : alExtend (alInsert base "content-type" "application/json")
        (modBuildHeaders custom) = hs := Except.ok.inj hok
    have hs0_eq : alInsert base "content-type" "application/json" = hs0 :=
      Except.ok.inj h0
    subst hs_eq hs0_eq
    have hauth : ∀ p ∈ modBuildHeaders custom, (p.1 == "authorization") = false := by
      intro p hp
      have := (List.mem_filter.mp hp).2
      simp only [Bool.and_eq_true, Bool.not_eq_true'] at this
      exact this.1
    have hapi : ∀ p ∈ modBuildHeaders custom, (p.1 == "x-api-key") = false := by
      intro p hp
      have := (List.mem_filter.mp hp).2
      simp only [Bool.and_eq_true, Bool.not_eq_true'] at this
      exact this.2
    exact ⟨alGet_alExtend_notmem _ _ _ hauth, alGet_alExtend_notmem _ _ _ hapi,
      alGet_alExtend_mem _ _ k v hnd hmem⟩

/-- C9 witness: a custom map trying to override `Authorization` and adding
`X-Test` — the authorization header survives untouched and the non-auth custom
header wins. -/
theorem c9_witness :
    alGet [("authorization", "Bearer tok"), ("content-type", "application/json"),
        ("x-test", "1")] "authorization" =
      alGet [("authorization", "Bearer tok"), ("content-type", "application/json")]
        "authorization" ∧
    alGet [("authorization", "Bearer tok"), ("content-type", "application/json"),
        ("x-test", "1")] "x-api-key" =
      alGet [("authorization", "Bearer tok"), ("content-type", "application/json")]
        "x-api-key" ∧
    alGet [("authorization", "Bearer tok"), ("content-type", "application/json"),
        ("x-test", "1")] "x-test" = some "1" :=
  c9_custom_headers (fun _ => none) "tok" [("Authorization", "evil"), ("X-Test", "1")]
    false _ _ "x-test" "1" rfl rfl (by decide) (by decide)

/-- C10: every request body built for the answer upstream carries exactly the
filtered message list: its `messages` field encodes `filteredMessages`, no
remaining message has role `system` or whitespace-only content, and the
relative order of the surviving messages is preserved (their contents form a
sublist of the original contents). -/
theorem c10_filtered_messages (env : Env) (msgs : List Message)
    (system? : Option String) (stream : Bool) (cfgBody : List (String × Json))
    (m : AnthropicMessage) (hm : m ∈ filteredMessages msgs) :
    alGet (buildRequestJson env msgs system? stream cfgBody) "messages" =
      some (encodeMessages (filteredMessages msgs)) ∧
    m.role ≠ "system" ∧
    rustTrim m.content ≠ "" ∧
    ((filteredMessages msgs).map (fun x => x.content)).Sublist
      (msgs.map (fun x => x.content)) := by
  refine ⟨?_, ?_, ?_, ?_⟩
  · have hextra : ∀ p ∈ cfgBody.filter
        (fun p => !(p.1 == "stream") && !(p.1 == "messages") && !(p.1 == "system")),
        (p.1 == "messages") = false := by
      intro p hp
      have := (List.mem_filter.mp hp).2
      simp only [Bool.and_eq_true, Bool.not_eq_true'] at this
      exact this.1.2
    rw [buildRequestJson.eq_def]
    simp only []
    rw [alGet_foldl_notmem _ _ _ hextra]
    cases system? with
    | none => rfl
    | some sys =>
      rw [alGet_alInsert_ne _ "system" "messages" _ (by decide)]
      rfl
  · simp only [filteredMessages, List.mem_map, List.mem_filter] at hm
    obtain ⟨orig, ⟨⟨_, hrole⟩, _⟩, rfl⟩ := hm
    cases ho : orig.role with
    | user => simp [ho]
    | assistant => simp [ho]
    | system => rw [ho] at hrole; simp at hrole
  · simp only [filteredMessages, List.mem_map, List.mem_filter] at hm
    obtain ⟨orig, ⟨⟨_, _⟩, htrim⟩, rfl⟩ := hm
    simpa using htrim
  · have hmapeq : (filteredMessages msgs).map (fun x => x.content) =
        ((msgs.filter (fun m => !(m.role == Role.system))).filter
          (fun m => !(rustTrim m.content == ""))).map (fun x => x.content) := by
      simp [filteredMessages, List.map_map, Function.comp]
    rw [hmapeq]
    exact List.Sublist.map _
      (((msgs.filter (fun m => !(m.role == Role.system))).filter_sublist
          (p := fun m => !(rustTrim m.content == ""))).trans
        (msgs.filter_sublist (p := fun m => !(m.role == Role.system))))

/-- C10 witness: a single user message survives the filter and the request's
`messages` field carries it. -/
theorem c10_witness :
    (⟨"user", "hi"⟩ : AnthropicMessage) ∈ filteredMessages [⟨Role.user, "hi"⟩] ∧
    (alGet (buildRequestJson (fun _ => none) [⟨Role.user, "hi"⟩] none false [])
        "messages" = some (encodeMessages (filteredMessages [⟨Role.user, "hi"⟩])) ∧
     (⟨"user", "hi"⟩ : AnthropicMessage).role ≠ "system" ∧
     rustTrim (⟨"user", "hi"⟩ : AnthropicMessage).content ≠ "" ∧
     ((filteredMessages [⟨Role.user, "hi"⟩]).map (fun x => x.content)).Sublist
       (([⟨Role.user, "hi"⟩] : List Message).map (fun x => x.content))) :=
  ⟨by decide,
   c10_filtered_messages (fun _ => none) [⟨Role.user, "hi"⟩] none false []
     ⟨"user", "hi"⟩ (by decide)⟩

end DeepClaude
